import Mathlib

/-!
Verification of the Zodya i18n module (`src/js/i18n.js`).

This file gives a shallow embedding of the module's data model and
operations: JSON-like translation datasets, the language-resolution
decision procedure, dataset loading with single-level default fallback,
the dot-path key lookup `t`, DOM rendering (`applyTranslations`),
document direction attributes, and the `setLanguage` switch operation.
Theorems settle the specification's claims about these operations.
-/

namespace I18n

/-! String primitives.  The JavaScript string operations the module uses
(`split` with the single-character separators `.`, `,`, `:` and `-`,
`toLowerCase`, `trim`, `includes('<')`, and numeric array indices) are
modelled over the character list of a `String`, so that every definition
evaluates inside the kernel. -/

/-- `String.prototype.split` with a single-character separator over a
character list: empty segments are kept and the empty string splits to
one empty segment. -/
def jsSplitList (sep : Char) : List Char → List (List Char)
  | [] => [[]]
  | c :: cs =>
      let r := jsSplitList sep cs
      if c = sep then [] :: r else (c :: r.headD []) :: r.tail

/-- `s.split(sep)` for a single-character separator. -/
def jsSplit (s : String) (sep : Char) : List String :=
  (jsSplitList sep s.data).map String.mk

/-- ASCII lower-casing of one character (the language codes compared
against are ASCII; non-ASCII case mapping is not needed by any claim). -/
def lowerChar (c : Char) : Char :=
  if 65 ≤ c.toNat ∧ c.toNat ≤ 90 then Char.ofNat (c.toNat + 32) else c

/-- `s.toLowerCase()`. -/
def jsLower (s : String) : String := String.mk (s.data.map lowerChar)

/-- `s.trim()`: strip leading and trailing whitespace. -/
def jsTrim (s : String) : String :=
  String.mk (((s.data.dropWhile Char.isWhitespace).reverse.dropWhile
    Char.isWhitespace).reverse)

/-- `s.includes(c)` for a single character. -/
def jsIncludes (s : String) (c : Char) : Bool := s.data.contains c

/-- Parse a string of decimal digits to a number, `none` when empty or
containing a non-digit (used for the array index form of `key in arr`). -/
def parseArrayIndex (s : String) : Option Nat :=
  if s.data ≠ [] ∧ s.data.all Char.isDigit then
    some (s.data.foldl (fun n c => n * 10 + (c.toNat - 48)) 0)
  else none

/-- JSON-like values, the type of translation datasets loaded from
`<translationsPath><code>.json`.  Numbers are modelled as integers (no
claim involves fractional numerics). -/
inductive JValue where
  | null : JValue
  | bool : Bool → JValue
  | num : Int → JValue
  | str : String → JValue
  | arr : List JValue → JValue
  | obj : List (String × JValue) → JValue

/-- JavaScript truthiness of a value: `null`, `false`, `0`, and `""` are
falsy; objects and arrays (including empty ones) are truthy. -/
def jsTruthy : JValue → Bool
  | .null => false
  | .bool b => b
  | .num n => n != 0
  | .str s => s != ""
  | .arr _ => true
  | .obj _ => true

/-- `typeof value === 'object'` in JavaScript: true for plain objects,
arrays and `null`. -/
def typeofObject : JValue → Bool
  | .null => true
  | .arr _ => true
  | .obj _ => true
  | _ => false

/-- The `key in value` test on an object or array (own properties: object
keys; for arrays, canonical numeric indices in range and `length`).
Datasets are `JSON.parse` results, modelled as pure trees: inherited
prototype-chain properties (`toString`, array methods, …) are not
modelled. -/
def hasOwnKey : JValue → String → Bool
  | .obj kvs, k => kvs.any (fun p => p.1 == k)
  | .arr vs, k =>
      (k == "length") ||
      (match parseArrayIndex k with
       | some i => decide (i < vs.length) && (toString i == k)
       | none => false)
  | _, _ => false

/-- Property read `value[key]` on an object or array, defaulting to `null`
where `hasOwnKey` is false (callers guard with `hasOwnKey`). -/
def getOwn : JValue → String → JValue
  | .obj kvs, k =>
      match kvs.find? (fun p => p.1 == k) with
      | some p => p.2
      | none => .null
  | .arr vs, k =>
      if k == "length" then .num vs.length
      else
        match parseArrayIndex k with
        | some i => vs.getD i .null
        | none => .null
  | _, _ => .null

/-- Property access `value.key` yielding `none` when the property is
undefined (access on `null` throws in JavaScript; callers guard it). -/
def getProp (v : JValue) (k : String) : Option JValue :=
  if hasOwnKey v k then some (getOwn v k) else none

/-- Whether a value is the JSON `null` (property access on it throws). -/
def isNull : JValue → Bool
  | .null => true
  | _ => false

mutual

/-- JavaScript string coercion of a value, as used when a non-string
truthy value is assigned to `document.title` or a meta attribute. -/
def jsToString : JValue → String
  | .null => "null"
  | .bool b => if b then "true" else "false"
  | .num n => toString n
  | .str s => s
  | .arr vs => jsToStringList vs
  | .obj _ => "[object Object]"
termination_by structural v => v

/-- `Array.prototype.toString`: elements joined by commas, `null`
elements rendered as the empty string. -/
def jsToStringList : List JValue → String
  | [] => ""
  | [.null] => ""
  | [v] => jsToString v
  | .null :: vs => "," ++ jsToStringList vs
  | v :: vs => jsToString v ++ "," ++ jsToStringList vs
termination_by structural l => l

end

/-- The module's static configuration object. -/
structure Config where
  defaultLanguage : String
  supportedLanguages : List String
  localStorageKey : String
  translationsPath : String
  rtlLanguages : List String

/-- `CONFIG` from the source: default `'en'`, supported `['en','ar']`,
RTL set `['ar']`. -/
def CONFIG : Config :=
  { defaultLanguage := "en"
    supportedLanguages := ["en", "ar"]
    localStorageKey := "zodya-language"
    translationsPath := "./locales/"
    rtlLanguages := ["ar"] }

/-- The browser environment read by language resolution.
`urlLang` is the `lang` query parameter (`none` when absent).
`storage` is `none` when `localStorage.getItem` throws, and otherwise
`some v` with `v` the stored value (`none` for a null entry).
`navLanguage` / `navUserLanguage` model `navigator.language` /
`navigator.userLanguage` (`none` for undefined; the empty string is a
possible, falsy, value).  `navLanguages` models `navigator.languages`. -/
structure BrowserEnv where
  urlLang : Option String
  storage : Option (Option String)
  navLanguage : Option String
  navUserLanguage : Option String
  navLanguages : Option (List String)

/-- `getUrlLanguage`: the `lang` query parameter, if present, truthy and
supported; otherwise `null`. -/
def getUrlLanguage (env : BrowserEnv) : Option String :=
  match env.urlLang with
  | some lang =>
      if lang ≠ "" ∧ lang ∈ CONFIG.supportedLanguages then some lang else none
  | none => none

/-- `getStoredLanguage`: the stored preference, if reading does not throw
and the value is truthy and supported; a thrown storage read is caught
and treated as no result. -/
def getStoredLanguage (env : BrowserEnv) : Option String :=
  match env.storage with
  | none => none
  | some stored =>
      match stored with
      | some s => if s ≠ "" ∧ s ∈ CONFIG.supportedLanguages then some s else none
      | none => none

/-- `browserLang.split('-')[0].toLowerCase()`: the language subtag before
the region separator, lower-cased. -/
def langSubtag (s : String) : String :=
  jsLower ((jsSplit s '-').headD "")

/-- The first entry of a locale preference list whose language subtag is
supported (the `navigator.languages` loop). -/
def firstSupportedSubtag : List String → Option String
  | [] => none
  | l :: ls =>
      let c := langSubtag l
      if c ∈ CONFIG.supportedLanguages then some c else firstSupportedSubtag ls

/-- JavaScript `a || b` on two possibly-undefined strings: `a` when it
is defined and truthy (non-empty), else `b`. -/
def jsOrString (a b : Option String) : Option String :=
  match a with
  | some s => if s ≠ "" then some s else b
  | none => b

/-- The `navigator.languages` part of detection: scan the ordered
preference list when it is defined. -/
def navLanguagesLookup (env : BrowserEnv) : Option String :=
  match env.navLanguages with
  | some ls => firstSupportedSubtag ls
  | none => none

/-- `detectBrowserLanguage`: check the primary locale
(`navigator.language || navigator.userLanguage`) first — when truthy and
its language subtag is supported, return that subtag — otherwise fall
through to the ordered `navigator.languages` list. -/
def detectBrowserLanguage (env : BrowserEnv) : Option String :=
  match jsOrString env.navLanguage env.navUserLanguage with
  | some s =>
      if s ≠ "" then
        if langSubtag s ∈ CONFIG.supportedLanguages then some (langSubtag s)
        else navLanguagesLookup env
      else navLanguagesLookup env
  | none => navLanguagesLookup env

/-- The resolution chain from `init`:
`getUrlLanguage() || getStoredLanguage() || detectBrowserLanguage() ||
CONFIG.defaultLanguage` (each getter returns either `null` or a
non-empty supported code, so `||` is option choice). -/
def resolveLanguage (env : BrowserEnv) : String :=
  match getUrlLanguage env with
  | some l => l
  | none =>
      match getStoredLanguage env with
      | some l => l
      | none =>
          match detectBrowserLanguage env with
          | some l => l
          | none => CONFIG.defaultLanguage

/-- `loadTranslations`: fetch `<code>.json`; on any failure (network
error, non-ok status or parse error, collapsed into `none`), recurse once
on the default code unless the failed code already is the default, in
which case the previously loaded dataset is kept.  The second component
records the sequence of fetch requests issued.  `fetch'` models the
network: `none` is a failed fetch, `some d` a parsed dataset.

The source implements the fallback as a recursive call
`loadTranslations(CONFIG.defaultLanguage)`; that inner call's argument
is the default code, so its own failure branch keeps the dataset and it
cannot recurse further.  The single possible level of recursion is
unfolded here so the definition is structural. -/
def loadTranslations (fetch' : String → Option JValue) (lang : String)
    (translations : JValue) : JValue × List String :=
  match fetch' lang with
  | some data => (data, [lang])
  | none =>
      if lang = CONFIG.defaultLanguage then (translations, [lang])
      else
        match fetch' CONFIG.defaultLanguage with
        | some data => (data, [lang, CONFIG.defaultLanguage])
        | none => (translations, [lang, CONFIG.defaultLanguage])

/-- The traversal loop of `t`: walk the dataset along the key segments;
`none` when some segment finds the current value not a truthy object or
lacking the segment. -/
def tWalk : JValue → List String → Option JValue
  | v, [] => some v
  | v, k :: ks =>
      if jsTruthy v && typeofObject v && hasOwnKey v k then
        tWalk (getOwn v k) ks
      else
        none

/-- `t`: split the key path on dots, walk the dataset, and return the
terminal value as-is, or the original key path string when the walk
aborts (the visible missing-translation marker). -/
def t (translations : JValue) (keyPath : String) : JValue :=
  match tWalk translations (jsSplit keyPath '.') with
  | some v => v
  | none => .str keyPath

/-- Declarative description of a successful walk: `Walks v ks w` holds
when following the segments `ks` from `v` — each step requiring a truthy
keyed container owning the segment — ends at the terminal value `w`. -/
inductive Walks : JValue → List String → JValue → Prop where
  | nil (v : JValue) : Walks v [] v
  | cons (v : JValue) (k : String) (ks : List String) (w : JValue)
      (htru : jsTruthy v = true) (hobj : typeofObject v = true)
      (hkey : hasOwnKey v k = true) (htail : Walks (getOwn v k) ks w) :
      Walks v (k :: ks) w

/-- The content of a DOM element as last written by the renderer:
`innerHTML` when the translation contained `<`, `textContent`
otherwise.  The initial page content is modelled the same way. -/
inductive Content where
  | text : String → Content
  | html : String → Content
deriving DecidableEq

/-- A DOM element: its attribute map (total over attribute names,
`none` = attribute absent, as `getAttribute` returning `null`) and its
content. -/
structure Element where
  attrs : String → Option String
  content : Content

/-- The parts of the document the module reads or writes: the element
list, `document.title`, the `content` attribute of the description meta
element (`none` when `querySelector` finds no such element), the root
element's `lang` and `dir` attributes, and the `rtl` / `ltr` /
`i18n-ready` classes on the body. -/
structure Document where
  elements : List Element
  title : String
  metaDesc : Option String
  htmlLang : String
  htmlDir : String
  bodyRtl : Bool
  bodyLtr : Bool
  bodyI18nReady : Bool

/-- `element.setAttribute(a, v)`. -/
def setAttr (e : Element) (a v : String) : Element :=
  { e with attrs := fun k => if k = a then some v else e.attrs k }

/-- The first rendering pass on one element: if it carries `data-i18n`,
look the key up and, when the result is a string, write it as HTML
content if it contains `<` and as text otherwise. -/
def applyContent (d : JValue) (e : Element) : Element :=
  match e.attrs "data-i18n" with
  | some key =>
      match t d key with
      | .str s =>
          { e with content := if jsIncludes s '<' then .html s else .text s }
      | _ => e
  | none => e

/-- Parse a `data-i18n-attr` value `attr1:key1,attr2:key2` into pairs;
the key is `none` when a comma segment has no colon (in the source the
destructured `key` is then `undefined` and `t(undefined)` throws). -/
def parsePairs (spec : String) : List (String × Option String) :=
  (jsSplit spec ',').map (fun pair =>
    let parts := (jsSplit pair ':').map jsTrim
    (parts.headD "", parts[1]?))

/-- Apply one attribute mapping pair to an element: `none` models the
`TypeError` thrown on a colon-less pair; a non-string lookup result
leaves the element unchanged. -/
def applyAttrPair (d : JValue) (e : Element) : String × Option String → Option Element
  | (_, none) => none
  | (a, some key) =>
      match t d key with
      | .str s => some (setAttr e a s)
      | _ => some e

/-- Apply a list of attribute mapping pairs in order; a throw aborts. -/
def applyPairs (d : JValue) (e : Element) : List (String × Option String) → Option Element
  | [] => some e
  | p :: ps =>
      match applyAttrPair d e p with
      | none => none
      | some e' => applyPairs d e' ps

/-- The second rendering pass on one element: if it carries
`data-i18n-attr`, apply all parsed pairs. -/
def applyAttrs (d : JValue) (e : Element) : Option Element :=
  match e.attrs "data-i18n-attr" with
  | some spec => applyPairs d e (parsePairs spec)
  | none => some e

/-- The second rendering pass over the element list. -/
def applyAttrsList (d : JValue) : List Element → Option (List Element)
  | [] => some []
  | e :: es =>
      match applyAttrs d e with
      | none => none
      | some e' =>
          match applyAttrsList d es with
          | none => none
          | some es' => some (e' :: es')

/-- The `document.title` update: set when `translations.meta` and
`translations.meta.title` are defined and truthy, else unchanged. -/
def applyTitle (d : JValue) (title : String) : String :=
  match getProp d "meta" with
  | some m =>
      if jsTruthy m then
        match getProp m "title" with
        | some ti => if jsTruthy ti then jsToString ti else title
        | none => title
      else title
  | none => title

/-- The description meta element update: set its `content` when the
element exists and `translations.meta.description` is defined and
truthy, else unchanged. -/
def applyMetaDesc (d : JValue) (metaDesc : Option String) : Option String :=
  match metaDesc with
  | some old =>
      match getProp d "meta" with
      | some m =>
          if jsTruthy m then
            match getProp m "description" with
            | some de => if jsTruthy de then some (jsToString de) else some old
            | none => some old
          else some old
      | none => some old
  | none => none

/-- `applyTranslations`: content pass over all `data-i18n` elements,
attribute pass over all `data-i18n-attr` elements, then the title and
meta-description updates.  `none` models a thrown `TypeError` — a
colon-less attribute pair, or the `translations.meta` access when the
dataset is `null`; the document writes preceding a throw are not
tracked, and no theorem inspects the document after a failed render. -/
def applyTranslations (d : JValue) (doc : Document) : Option Document :=
  let els1 := doc.elements.map (applyContent d)
  match applyAttrsList d els1 with
  | none => none
  | some els2 =>
      if isNull d then none
      else
        some { doc with
                elements := els2
                title := applyTitle d doc.title
                metaDesc := applyMetaDesc d doc.metaDesc }

/-- `updateDocumentAttributes`: root `lang` and `dir` attributes from the
active code, and the mutually exclusive `rtl` / `ltr` body classes. -/
def updateDocumentAttributes (lang : String) (doc : Document) : Document :=
  let isR : Bool := decide (lang ∈ CONFIG.rtlLanguages)
  { doc with
      htmlLang := lang
      htmlDir := if isR then "rtl" else "ltr"
      bodyRtl := isR
      bodyLtr := !isR }

/-- The module state: `currentLanguage` and `translations` (the two
mutable module variables), together with the observable boundary —
the persisted preference, the document, the dispatched custom events,
and the log of fetch requests issued.  The language-selector buttons'
classes are not modelled; no claim inspects them, and the two `return`
paths of `setLanguage` exit before any effect at all. -/
structure I18nState where
  currentLanguage : String
  translations : JValue
  storedPref : Option String
  doc : Document
  events : List String
  fetchLog : List String

/-- `setLanguage`: no-op on an unsupported code, silent no-op on the
already-active code; otherwise set the active code, persist best-effort
(`storageWorks` models whether `localStorage.setItem` throws), load with
fallback, render, update document attributes, and dispatch the
language-changed event.  A render throw (`applyTranslations` = `none`)
skips the remaining steps. -/
def setLanguage (fetch' : String → Option JValue) (storageWorks : Bool)
    (lang : String) (st : I18nState) : I18nState :=
  if lang ∈ CONFIG.supportedLanguages then
    if lang = st.currentLanguage then st
    else
      let st1 := { st with currentLanguage := lang }
      let st2 := if storageWorks then { st1 with storedPref := some lang } else st1
      let lr := loadTranslations fetch' lang st2.translations
      let st3 := { st2 with
                    translations := lr.1
                    fetchLog := st2.fetchLog ++ lr.2 }
      match applyTranslations st3.translations st3.doc with
      | none => st3
      | some doc' =>
          { st3 with
              doc := updateDocumentAttributes lang doc'
              events := st3.events ++ ["languageChanged:" ++ lang] }
  else st

/-- `init`: resolve the language, load its dataset starting from the
empty initial `translations = {}`, render, update document attributes,
mark the body ready and dispatch the ready event.  A render throw skips
the steps after rendering. -/
def init (env : BrowserEnv) (fetch' : String → Option JValue)
    (doc₀ : Document) : I18nState :=
  let lang := resolveLanguage env
  let lr := loadTranslations fetch' lang (JValue.obj [])
  let base : I18nState :=
    { currentLanguage := lang
      translations := lr.1
      storedPref := env.storage.getD none
      doc := doc₀
      events := []
      fetchLog := lr.2 }
  match applyTranslations lr.1 doc₀ with
  | none => base
  | some doc' =>
      let doc'' := updateDocumentAttributes lang doc'
      { base with
          doc := { doc'' with bodyI18nReady := true }
          events := ["ready:" ++ lang] }

/-- `getCurrentLanguage`. -/
def getCurrentLanguage (st : I18nState) : String :=
  st.currentLanguage

/-- `isRTL`. -/
def isRTL (st : I18nState) : Bool :=
  decide (st.currentLanguage ∈ CONFIG.rtlLanguages)

/-- A sequence of `setLanguage` calls applied to a state. -/
def runScript (fetch' : String → Option JValue) (storageWorks : Bool)
    (calls : List String) (st : I18nState) : I18nState :=
  calls.foldl (fun s l => setLanguage fetch' storageWorks l s) st

/-! Helper lemmas. -/

/-- A successful `tWalk` is a `Walks` derivation. -/
theorem tWalk_walks {v : JValue} {ks : List String} {w : JValue}
    (h : tWalk v ks = some w) : Walks v ks w := by
  induction ks generalizing v with
  | nil =>
      simp only [tWalk, Option.some.injEq] at h
      exact h ▸ Walks.nil v
  | cons k ks ih =>
      simp only [tWalk] at h
      by_cases hc : (jsTruthy v && typeofObject v && hasOwnKey v k) = true
      · rw [if_pos hc] at h
        obtain ⟨⟨h1, h2⟩, h3⟩ := by simpa [Bool.and_eq_true] using hc
        exact Walks.cons v k ks w h1 h2 h3 (ih h)
      · rw [if_neg hc] at h
        exact absurd h (by simp)

/-- A `Walks` derivation makes `tWalk` succeed with the same terminal. -/
theorem walks_tWalk {v : JValue} {ks : List String} {w : JValue}
    (h : Walks v ks w) : tWalk v ks = some w := by
  induction h with
  | nil v => rfl
  | cons v k ks w htru hobj hkey htail ih =>
      simp [tWalk, htru, hobj, hkey, ih]

/-! Concrete fixtures used by witnesses and counterexamples. -/

/-- A sample Arabic dataset. -/
def dAr : JValue := .obj [("x", .str "y")]

/-- A network where only `ar.json` exists. -/
def fetchArOnly : String → Option JValue :=
  fun l => if l = "ar" then some dAr else none

/-- A document with no marked elements. -/
def docEmpty : Document :=
  { elements := [], title := "", metaDesc := none, htmlLang := "", htmlDir := ""
    bodyRtl := false, bodyLtr := false, bodyI18nReady := false }

/-- A state with English active and an empty dataset. -/
def stEn : I18nState :=
  { currentLanguage := "en", translations := .obj [], storedPref := none
    doc := docEmpty, events := [], fetchLog := [] }

/-! Claim theorems. -/

/-- C2: `t` splits its input on dots and walks the dataset; when no walk
along the segments exists (some segment meets a value that is not a
truthy keyed container or lacks the segment), `t` returns the input path
string unchanged, and otherwise it returns the terminal value as-is;
`t "a.b.c"` on `{a:{b:{c:"X"}}}` is `"X"` and on `{a:{b:{}}}` is
`"a.b.c"`. -/
theorem t_walks_dataset_or_returns_key :
    (∀ d p, (¬ ∃ w, Walks d (jsSplit p '.') w) → t d p = .str p) ∧
    (∀ d p w, Walks d (jsSplit p '.') w → t d p = w) ∧
    t (.obj [("a", .obj [("b", .obj [("c", .str "X")])])]) "a.b.c" = .str "X" ∧
    t (.obj [("a", .obj [("b", .obj [])])]) "a.b.c" = .str "a.b.c" := by
  refine ⟨?_, ?_, rfl, rfl⟩
  · intro d p h
    cases hw : tWalk d (jsSplit p '.') with
    | none => simp [t, hw]
    | some w => exact absurd ⟨w, tWalk_walks hw⟩ h
  · intro d p w hw
    simp [t, walks_tWalk hw]

/-- Witness for C2 at concrete inputs: a present key resolves to its
value, a missing key returns the path. -/
theorem t_walks_dataset_or_returns_key_witness :
    t (.obj [("k", .str "V")]) "k" = .str "V" ∧
    t (.obj []) "k" = .str "k" := by
  constructor
  · exact t_walks_dataset_or_returns_key.2.1 _ "k" (.str "V")
      (Walks.cons _ "k" [] (.str "V") rfl rfl rfl (Walks.nil _))
  · refine t_walks_dataset_or_returns_key.1 _ "k" ?_
    rintro ⟨w, hw⟩
    cases hw with
    | cons _ _ _ _ htru hobj hkey htail => exact absurd hkey (by decide)

/-- C10: `t` is total — for every key path and every dataset shape it
returns either the input path string or a value reached by walking the
path — and it handles arrays, `null`, non-object leaves mid-path, the
empty path and empty segments. -/
theorem t_total_value_or_key :
    (∀ d p, t d p = .str p ∨ Walks d (jsSplit p '.') (t d p)) ∧
    t (.obj [("a", .arr [.str "z"])]) "a.0" = .str "z" ∧
    t (.obj [("a", .arr [.str "z"])]) "a.length" = .num 1 ∧
    t .null "" = .str "" ∧
    t (.obj [("a", .null)]) "a.b" = .str "a.b" ∧
    t (.obj [("a", .num 3)]) "a.b" = .str "a.b" ∧
    t (.obj [("a", .obj [("", .obj [("b", .str "w")])])]) "a..b" = .str "w" := by
  refine ⟨?_, rfl, rfl, rfl, rfl, rfl, rfl⟩
  intro d p
  cases hw : tWalk d (jsSplit p '.') with
  | none => left; simp [t, hw]
  | some w =>
      right
      have hv : t d p = w := by simp [t, hw]
      rw [hv]
      exact tWalk_walks hw

/-- C3: when the fetch for a non-default code fails, loading retries the
default code exactly once (the fetch log is precisely the failed code
followed by the default code); when that fallback also fails, the
dataset is left unchanged.  The load operation is a total function, so
no exception reaches the caller. -/
theorem loadTranslations_default_fallback_once
    (f : String → Option JValue) (lang : String) (dat : JValue)
    (hfail : f lang = none) (hne : lang ≠ CONFIG.defaultLanguage) :
    (loadTranslations f lang dat).2 = [lang, CONFIG.defaultLanguage] ∧
    (∀ d, f CONFIG.defaultLanguage = some d → (loadTranslations f lang dat).1 = d) ∧
    (f CONFIG.defaultLanguage = none → (loadTranslations f lang dat).1 = dat) := by
  cases h : f CONFIG.defaultLanguage <;>
    simp [loadTranslations, hfail, hne, h]

/-- Witness for C3: with no network at all, loading `ar` fetches `ar`
then `en` and keeps the previous dataset. -/
theorem loadTranslations_default_fallback_once_witness :
    (loadTranslations (fun _ => none) "ar" (.obj [])).2 = ["ar", "en"] ∧
    (loadTranslations (fun _ => none) "ar" (.obj [])).1 = .obj [] :=
  ⟨(loadTranslations_default_fallback_once (fun _ => none) "ar" (.obj []) rfl
      (by decide)).1,
   (loadTranslations_default_fallback_once (fun _ => none) "ar" (.obj []) rfl
      (by decide)).2.2 rfl⟩

/-- C5: switching to an unsupported code is a no-op: the whole module
state — active code, dataset, stored preference, document, dispatched
events, and fetch log — is returned unchanged. -/
theorem setLanguage_unsupported_noop
    (f : String → Option JValue) (sw : Bool) (lang : String) (st : I18nState)
    (h : lang ∉ CONFIG.supportedLanguages) :
    setLanguage f sw lang st = st := by
  simp [setLanguage, h]

/-- Witness for C5: switching to `fr` changes nothing. -/
theorem setLanguage_unsupported_noop_witness :
    setLanguage fetchArOnly true "fr" stEn = stEn :=
  setLanguage_unsupported_noop fetchArOnly true "fr" stEn (by decide)

/-- C6: switching to the already-active code returns the state
unchanged — no fetch is logged, no preference stored, no event
dispatched, no field modified. -/
theorem setLanguage_same_code_noop
    (f : String → Option JValue) (sw : Bool) (st : I18nState) :
    setLanguage f sw st.currentLanguage st = st := by
  by_cases h : st.currentLanguage ∈ CONFIG.supportedLanguages <;>
    simp [setLanguage, h]

/-- Every code returned by the URL getter is supported. -/
theorem getUrlLanguage_mem {env : BrowserEnv} {l : String}
    (h : getUrlLanguage env = some l) : l ∈ CONFIG.supportedLanguages := by
  unfold getUrlLanguage at h
  cases henv : env.urlLang with
  | none => simp [henv] at h
  | some s =>
      simp only [henv] at h
      by_cases hc : s ≠ "" ∧ s ∈ CONFIG.supportedLanguages
      · rw [if_pos hc] at h
        cases h
        exact hc.2
      · simp [if_neg hc] at h

/-- Every code returned by the storage getter is supported. -/
theorem getStoredLanguage_mem {env : BrowserEnv} {l : String}
    (h : getStoredLanguage env = some l) : l ∈ CONFIG.supportedLanguages := by
  unfold getStoredLanguage at h
  cases henv : env.storage with
  | none => simp [henv] at h
  | some stored =>
      simp only [henv] at h
      cases stored with
      | none => simp at h
      | some s =>
          simp only at h
          by_cases hc : s ≠ "" ∧ s ∈ CONFIG.supportedLanguages
          · rw [if_pos hc] at h
            cases h
            exact hc.2
          · simp [if_neg hc] at h

/-- The locale-list scan only yields supported subtags. -/
theorem firstSupportedSubtag_mem {ls : List String} {l : String}
    (h : firstSupportedSubtag ls = some l) : l ∈ CONFIG.supportedLanguages := by
  induction ls with
  | nil => simp [firstSupportedSubtag] at h
  | cons x xs ih =>
      unfold firstSupportedSubtag at h
      by_cases hc : langSubtag x ∈ CONFIG.supportedLanguages
      · simp only [if_pos hc, Option.some.injEq] at h
        exact h ▸ hc
      · rw [if_neg hc] at h
        exact ih h

/-- The `navigator.languages` scan only yields supported codes. -/
theorem navLanguagesLookup_mem {env : BrowserEnv} {l : String}
    (h : navLanguagesLookup env = some l) : l ∈ CONFIG.supportedLanguages := by
  unfold navLanguagesLookup at h
  cases hnl : env.navLanguages with
  | none => simp [hnl] at h
  | some ls =>
      simp only [hnl] at h
      exact firstSupportedSubtag_mem h

/-- Every code returned by browser detection is supported. -/
theorem detectBrowserLanguage_mem {env : BrowserEnv} {l : String}
    (h : detectBrowserLanguage env = some l) : l ∈ CONFIG.supportedLanguages := by
  unfold detectBrowserLanguage at h
  cases hb : jsOrString env.navLanguage env.navUserLanguage with
  | some s =>
      simp only [hb] at h
      by_cases hs : s ≠ ""
      · rw [if_pos hs] at h
        by_cases hc : langSubtag s ∈ CONFIG.supportedLanguages
        · simp only [if_pos hc, Option.some.injEq] at h
          exact h ▸ hc
        · rw [if_neg hc] at h
          exact navLanguagesLookup_mem h
      · rw [if_neg hs] at h
        exact navLanguagesLookup_mem h
  | none =>
      simp only [hb] at h
      exact navLanguagesLookup_mem h

/-- The resolved language is always supported. -/
theorem resolveLanguage_mem (env : BrowserEnv) :
    resolveLanguage env ∈ CONFIG.supportedLanguages := by
  unfold resolveLanguage
  cases hu : getUrlLanguage env with
  | some l => exact getUrlLanguage_mem hu
  | none =>
      cases hs : getStoredLanguage env with
      | some l => exact getStoredLanguage_mem hs
      | none =>
          cases hd : detectBrowserLanguage env with
          | some l => exact detectBrowserLanguage_mem hd
          | none => decide

/-- Supported codes are non-empty strings. -/
theorem supported_ne_empty {l : String}
    (h : l ∈ CONFIG.supportedLanguages) : l ≠ "" := by
  fin_cases h <;> decide

/-- A supported URL parameter makes the URL getter return it. -/
theorem getUrlLanguage_of_mem {env : BrowserEnv} {l : String}
    (h : env.urlLang = some l) (hs : l ∈ CONFIG.supportedLanguages) :
    getUrlLanguage env = some l := by
  unfold getUrlLanguage
  simp only [h]
  rw [if_pos ⟨supported_ne_empty hs, hs⟩]

/-- A supported stored value makes the storage getter return it. -/
theorem getStoredLanguage_of_mem {env : BrowserEnv} {l : String}
    (h : env.storage = some (some l)) (hs : l ∈ CONFIG.supportedLanguages) :
    getStoredLanguage env = some l := by
  unfold getStoredLanguage
  simp only [h]
  rw [if_pos ⟨supported_ne_empty hs, hs⟩]

/-- C1: resolution priority is strict — a supported query-parameter code
wins outright; with no supported query code, a supported stored code
wins; with neither, the detected browser code wins (within detection the
primary locale's subtag is checked before the ordered preference list);
with none, the default is used — and unsupported codes from any source
are skipped entirely: an unsupported query or stored code makes its
getter yield nothing, detection only ever yields supported subtags, and
the final result is always a supported code. -/
theorem language_resolution_strict_priority (env : BrowserEnv) :
    (∀ l, env.urlLang = some l → l ∈ CONFIG.supportedLanguages →
      resolveLanguage env = l) ∧
    (∀ l, env.urlLang = some l → l ∉ CONFIG.supportedLanguages →
      getUrlLanguage env = none) ∧
    (∀ l, getUrlLanguage env = none → env.storage = some (some l) →
      l ∈ CONFIG.supportedLanguages → resolveLanguage env = l) ∧
    (∀ l, env.storage = some (some l) → l ∉ CONFIG.supportedLanguages →
      getStoredLanguage env = none) ∧
    (∀ l, getUrlLanguage env = none → getStoredLanguage env = none →
      detectBrowserLanguage env = some l → resolveLanguage env = l) ∧
    (∀ l, detectBrowserLanguage env = some l → l ∈ CONFIG.supportedLanguages) ∧
    (∀ b, env.navLanguage = some b → b ≠ "" →
      langSubtag b ∈ CONFIG.supportedLanguages →
      detectBrowserLanguage env = some (langSubtag b)) ∧
    (∀ b ls, env.navLanguage = some b → b ≠ "" →
      langSubtag b ∉ CONFIG.supportedLanguages → env.navLanguages = some ls →
      detectBrowserLanguage env = firstSupportedSubtag ls) ∧
    (getUrlLanguage env = none → getStoredLanguage env = none →
      detectBrowserLanguage env = none →
      resolveLanguage env = CONFIG.defaultLanguage) ∧
    resolveLanguage env ∈ CONFIG.supportedLanguages := by
  refine ⟨?_, ?_, ?_, ?_, ?_, ?_, ?_, ?_, ?_, resolveLanguage_mem env⟩
  · intro l h hs
    unfold resolveLanguage
    simp only [getUrlLanguage_of_mem h hs]
  · intro l h hns
    unfold getUrlLanguage
    simp only [h]
    rw [if_neg]
    rintro ⟨-, hmem⟩
    exact hns hmem
  · intro l hu hst hs
    unfold resolveLanguage
    simp only [hu, getStoredLanguage_of_mem hst hs]
  · intro l hst hns
    unfold getStoredLanguage
    simp only [hst]
    rw [if_neg]
    rintro ⟨-, hmem⟩
    exact hns hmem
  · intro l hu hs hd
    unfold resolveLanguage
    simp only [hu, hs, hd]
  · intro l hd
    exact detectBrowserLanguage_mem hd
  · intro b hnav hb hsub
    unfold detectBrowserLanguage
    have hor : jsOrString env.navLanguage env.navUserLanguage = some b := by
      unfold jsOrString
      simp only [hnav]
      rw [if_pos hb]
    simp only [hor]
    rw [if_pos hb, if_pos hsub]
  · intro b ls hnav hb hsub hls
    unfold detectBrowserLanguage
    have hor : jsOrString env.navLanguage env.navUserLanguage = some b := by
      unfold jsOrString
      simp only [hnav]
      rw [if_pos hb]
    simp only [hor]
    rw [if_pos hb, if_neg hsub]
    unfold navLanguagesLookup
    simp only [hls]
  · intro hu hs hd
    unfold resolveLanguage
    simp only [hu, hs, hd]

/-- Witness for C1 at concrete environments: a supported URL code beats
a stored code, a supported stored code beats detection once the URL code
is unsupported, and detection falls back from an unsupported primary
locale to the preference list. -/
theorem language_resolution_strict_priority_witness :
    resolveLanguage ⟨some "ar", some (some "en"), some "en", none, none⟩ = "ar" ∧
    resolveLanguage ⟨some "fr", some (some "ar"), some "en", none, none⟩ = "ar" ∧
    resolveLanguage ⟨none, some none, some "AR-SA", none, none⟩ = "ar" ∧
    detectBrowserLanguage ⟨none, none, some "fr-FR", none, some ["de-DE", "ar-EG"]⟩ =
      firstSupportedSubtag ["de-DE", "ar-EG"] ∧
    resolveLanguage ⟨none, none, none, none, none⟩ = CONFIG.defaultLanguage := by
  refine ⟨?_, ?_, ?_, ?_, ?_⟩
  · exact (language_resolution_strict_priority _).1 "ar" rfl (by decide)
  · exact (language_resolution_strict_priority _).2.2.1 "ar" rfl rfl (by decide)
  · exact (language_resolution_strict_priority _).2.2.2.2.1 "ar" rfl rfl rfl
  · exact (language_resolution_strict_priority _).2.2.2.2.2.2.2.1 "fr-FR"
      ["de-DE", "ar-EG"] rfl (by decide) (by decide) rfl
  · exact (language_resolution_strict_priority _).2.2.2.2.2.2.2.2.1 rfl rfl rfl

/-- C4: resolution is a total function that always produces a supported
code; a throwing storage read (`storage = none`) is treated exactly like
an absent stored value; and when every source yields nothing the default
code is produced. -/
theorem language_resolution_total_default (env : BrowserEnv) :
    resolveLanguage env ∈ CONFIG.supportedLanguages ∧
    resolveLanguage { env with storage := none } =
      resolveLanguage { env with storage := some none } ∧
    (getUrlLanguage env = none → getStoredLanguage env = none →
      detectBrowserLanguage env = none →
      resolveLanguage env = CONFIG.defaultLanguage) := by
  refine ⟨resolveLanguage_mem env, rfl, ?_⟩
  intro hu hs hd
  unfold resolveLanguage
  simp only [hu, hs, hd]

/-- Witness for C4 at the empty environment: every source yields nothing
and resolution terminates in the default code. -/
theorem language_resolution_total_default_witness :
    resolveLanguage ⟨none, none, none, none, none⟩ = CONFIG.defaultLanguage ∧
    resolveLanguage ⟨none, none, none, none, none⟩ ∈ CONFIG.supportedLanguages :=
  ⟨(language_resolution_total_default _).2.2 rfl rfl rfl,
   (language_resolution_total_default ⟨none, none, none, none, none⟩).1⟩

/-- C7: after a successful switch to a supported code `lang` (a fresh
code whose render completed), the document root's `lang` attribute
equals `lang`, its `dir` attribute is `rtl` exactly when `lang` is in
the configured right-to-left set (and `ltr` otherwise), and exactly one
of the two body direction classes is active. -/
theorem setLanguage_document_direction
    (f : String → Option JValue) (sw : Bool) (lang : String) (st : I18nState)
    (doc' : Document)
    (hsup : lang ∈ CONFIG.supportedLanguages) (hne : lang ≠ st.currentLanguage)
    (hrender : applyTranslations (loadTranslations f lang st.translations).1
      st.doc = some doc') :
    (setLanguage f sw lang st).doc.htmlLang = lang ∧
    ((setLanguage f sw lang st).doc.htmlDir = "rtl" ↔
      lang ∈ CONFIG.rtlLanguages) ∧
    ((setLanguage f sw lang st).doc.htmlDir = "rtl" ∨
      (setLanguage f sw lang st).doc.htmlDir = "ltr") ∧
    ((setLanguage f sw lang st).doc.bodyRtl = true ↔
      lang ∈ CONFIG.rtlLanguages) ∧
    (setLanguage f sw lang st).doc.bodyRtl = !(setLanguage f sw lang st).doc.bodyLtr := by
  have hdoc : (setLanguage f sw lang st).doc = updateDocumentAttributes lang doc' := by
    cases sw <;>
      simp only [setLanguage, if_pos hsup, if_neg hne, Bool.false_eq_true,
        if_true, if_false, hrender]
  rw [hdoc]
  by_cases hr : lang ∈ CONFIG.rtlLanguages <;>
    simp [updateDocumentAttributes, hr]

/-- The document produced by rendering the loaded Arabic dataset over
the empty document (used to discharge the render hypothesis). -/
def docArRendered : Document :=
  (applyTranslations (loadTranslations fetchArOnly "ar" stEn.translations).1
    stEn.doc).getD docEmpty

/-- Witness for C7: switching the English state to Arabic sets
`lang="ar"`, `dir="rtl"`, and the `rtl` body class exclusively. -/
theorem setLanguage_document_direction_witness :
    (setLanguage fetchArOnly true "ar" stEn).doc.htmlLang = "ar" ∧
    ((setLanguage fetchArOnly true "ar" stEn).doc.htmlDir = "rtl" ↔
      "ar" ∈ CONFIG.rtlLanguages) ∧
    ((setLanguage fetchArOnly true "ar" stEn).doc.htmlDir = "rtl" ∨
      (setLanguage fetchArOnly true "ar" stEn).doc.htmlDir = "ltr") ∧
    ((setLanguage fetchArOnly true "ar" stEn).doc.bodyRtl = true ↔
      "ar" ∈ CONFIG.rtlLanguages) ∧
    (setLanguage fetchArOnly true "ar" stEn).doc.bodyRtl =
      !(setLanguage fetchArOnly true "ar" stEn).doc.bodyLtr :=
  setLanguage_document_direction fetchArOnly true "ar" stEn docArRendered
    (by decide) (by decide) rfl

/-- A load result is the previous dataset, the requested code's fetched
dataset, or the default code's fetched dataset. -/
theorem loadTranslations_result_cases
    (f : String → Option JValue) (lang : String) (dat : JValue) :
    (loadTranslations f lang dat).1 = dat ∨
    f lang = some (loadTranslations f lang dat).1 ∨
    f CONFIG.defaultLanguage = some (loadTranslations f lang dat).1 := by
  cases h : f lang with
  | some d => right; left; simp [loadTranslations, h]
  | none =>
      by_cases hd : lang = CONFIG.defaultLanguage
      · left
        subst hd
        simp [loadTranslations, h]
      · cases h2 : f CONFIG.defaultLanguage with
        | some d => right; right; simp [loadTranslations, h, hd, h2]
        | none => left; simp [loadTranslations, h, hd, h2]

/-- The state invariant that actually holds in every reachable state:
the active code is supported, and the in-memory dataset is either the
initial empty object or the fetched dataset of some supported code. -/
def DatasetInv (f : String → Option JValue) (st : I18nState) : Prop :=
  st.currentLanguage ∈ CONFIG.supportedLanguages ∧
  (st.translations = JValue.obj [] ∨
   ∃ L ∈ CONFIG.supportedLanguages, f L = some st.translations)

/-- Initialization establishes the invariant. -/
theorem init_datasetInv (env : BrowserEnv) (f : String → Option JValue)
    (doc₀ : Document) : DatasetInv f (init env f doc₀) := by
  have hlang := resolveLanguage_mem env
  have hload := loadTranslations_result_cases f (resolveLanguage env) (JValue.obj [])
  unfold init DatasetInv
  cases happly : applyTranslations
      (loadTranslations f (resolveLanguage env) (JValue.obj [])).1 doc₀ with
  | none =>
      simp only [happly]
      refine ⟨hlang, ?_⟩
      rcases hload with h | h | h
      · exact Or.inl h
      · exact Or.inr ⟨resolveLanguage env, hlang, h⟩
      · exact Or.inr ⟨CONFIG.defaultLanguage, by decide, h⟩
  | some doc' =>
      simp only [happly]
      refine ⟨hlang, ?_⟩
      rcases hload with h | h | h
      · exact Or.inl h
      · exact Or.inr ⟨resolveLanguage env, hlang, h⟩
      · exact Or.inr ⟨CONFIG.defaultLanguage, by decide, h⟩

/-- A `setLanguage` call preserves the invariant. -/
theorem setLanguage_datasetInv (f : String → Option JValue) (sw : Bool)
    (l : String) (st : I18nState) (hst : DatasetInv f st) :
    DatasetInv f (setLanguage f sw l st) := by
  by_cases hsupp : l ∈ CONFIG.supportedLanguages
  · by_cases heq : l = st.currentLanguage
    · simpa [setLanguage, hsupp, heq] using hst
    · have hload := loadTranslations_result_cases f l st.translations
      unfold DatasetInv
      have hcl : (setLanguage f sw l st).currentLanguage = l ∧
          (setLanguage f sw l st).translations =
            (loadTranslations f l st.translations).1 := by
        cases sw <;>
          · simp only [setLanguage, if_pos hsupp, if_neg heq, Bool.false_eq_true,
              if_true, if_false]
            cases happly : applyTranslations
                (loadTranslations f l st.translations).1 st.doc <;>
              simp only [happly] <;> constructor <;> trivial
      rw [hcl.1, hcl.2]
      refine ⟨hsupp, ?_⟩
      rcases hload with h | h | h
      · rw [h]
        exact hst.2
      · exact Or.inr ⟨l, hsupp, h⟩
      · exact Or.inr ⟨CONFIG.defaultLanguage, by decide, h⟩
  · simpa [setLanguage, hsupp] using hst

/-- Any sequence of switch calls preserves the invariant. -/
theorem runScript_datasetInv (f : String → Option JValue) (sw : Bool)
    (calls : List String) (st : I18nState) (hst : DatasetInv f st) :
    DatasetInv f (runScript f sw calls st) := by
  induction calls generalizing st with
  | nil => exact hst
  | cons c cs ih => exact ih _ (setLanguage_datasetInv f sw c st hst)

/-- C9 (amended): in every reachable state — after initialization and
any sequence of switch calls — the active code is supported, and the
in-memory dataset is the initial empty object or the fetched dataset of
some supported language: on load failure it may remain the previously
loaded language's dataset, which need not be the active language's nor
the default's. -/
theorem reachable_state_invariant (env : BrowserEnv)
    (f : String → Option JValue) (sw : Bool) (doc₀ : Document)
    (calls : List String) :
    (runScript f sw calls (init env f doc₀)).currentLanguage ∈
      CONFIG.supportedLanguages ∧
    ((runScript f sw calls (init env f doc₀)).translations = JValue.obj [] ∨
     ∃ L ∈ CONFIG.supportedLanguages,
       f L = some (runScript f sw calls (init env f doc₀)).translations) :=
  runScript_datasetInv f sw calls (init env f doc₀) (init_datasetInv env f doc₀)

/-- An environment whose URL carries `lang=ar` and whose storage is
empty. -/
def envUrlAr : BrowserEnv := ⟨some "ar", some none, none, none, none⟩

/-- C9 counterexample: start with `?lang=ar` on a network where only
`ar.json` exists, then switch to `en`.  The switch sets the active code
to `en` (the default); its fetch fails, and because the failed code is
the default no fallback fires, so the dataset remains the previously
loaded Arabic dataset — corresponding neither to the active code nor to
the default code, contradicting the claim that the dataset always
corresponds to the active language or, on failure, to the default. -/
theorem reachable_state_invariant_counterexample :
    (runScript fetchArOnly true ["en"]
      (init envUrlAr fetchArOnly docEmpty)).currentLanguage = "en" ∧
    CONFIG.defaultLanguage = "en" ∧
    ¬ (fetchArOnly (runScript fetchArOnly true ["en"]
          (init envUrlAr fetchArOnly docEmpty)).currentLanguage =
        some (runScript fetchArOnly true ["en"]
          (init envUrlAr fetchArOnly docEmpty)).translations ∨
       fetchArOnly CONFIG.defaultLanguage =
        some (runScript fetchArOnly true ["en"]
          (init envUrlAr fetchArOnly docEmpty)).translations) ∧
    fetchArOnly "ar" =
      some (runScript fetchArOnly true ["en"]
        (init envUrlAr fetchArOnly docEmpty)).translations := by
  refine ⟨rfl, rfl, ?_, rfl⟩
  rintro (h | h) <;> exact Option.noConfusion h

/-- The content pass never changes an element's attributes. -/
theorem applyContent_attrs (d : JValue) (e : Element) :
    (applyContent d e).attrs = e.attrs := by
  cases h : e.attrs "data-i18n" with
  | none => simp [applyContent, h]
  | some key => cases ht : t d key <;> simp [applyContent, h, ht]

/-- The content pass is idempotent on one element. -/
theorem applyContent_idem (d : JValue) (e : Element) :
    applyContent d (applyContent d e) = applyContent d e := by
  cases h : e.attrs "data-i18n" with
  | none =>
      have he : applyContent d e = e := by simp [applyContent, h]
      rw [he, he]
  | some key =>
      cases ht : t d key with
      | str s =>
          have he : applyContent d e =
              { e with content := if jsIncludes s '<' then .html s else .text s } := by
            simp [applyContent, h, ht]
          rw [he]
          simp [applyContent, h, ht]
      | null =>
          have he : applyContent d e = e := by simp [applyContent, h, ht]
          rw [he, he]
      | bool b =>
          have he : applyContent d e = e := by simp [applyContent, h, ht]
          rw [he, he]
      | num n =>
          have he : applyContent d e = e := by simp [applyContent, h, ht]
          rw [he, he]
      | arr vs =>
          have he : applyContent d e = e := by simp [applyContent, h, ht]
          rw [he, he]
      | obj kvs =>
          have he : applyContent d e = e := by simp [applyContent, h, ht]
          rw [he, he]

/-- The sequence of attribute writes an attribute pass performs, read
off the parsed pairs and the dataset alone: `none` when some pair has
no key (the pass throws); pairs whose lookup is not a string write
nothing. -/
def pairActions (d : JValue) : List (String × Option String) → Option (List (String × String))
  | [] => some []
  | (_, none) :: _ => none
  | (a, some key) :: rest =>
      match t d key with
      | .str s => (pairActions d rest).map (fun ws => (a, s) :: ws)
      | _ => pairActions d rest

/-- Apply a sequence of attribute writes, first write first. -/
def writeSeq (ws : List (String × String)) (f : String → Option String) :
    String → Option String :=
  match ws with
  | [] => f
  | (a, v) :: rest => writeSeq rest (fun k => if k = a then some v else f k)

/-- The last write to a given attribute in a write sequence. -/
def lastWrite : List (String × String) → String → Option String
  | [], _ => none
  | (a, v) :: rest, k =>
      match lastWrite rest k with
      | some w => some w
      | none => if k = a then some v else none

/-- A write sequence reads back the last write, else the base map. -/
theorem writeSeq_apply (ws : List (String × String))
    (f : String → Option String) (k : String) :
    writeSeq ws f k =
      match lastWrite ws k with
      | some v => some v
      | none => f k := by
  induction ws generalizing f with
  | nil => rfl
  | cons p rest ih =>
      obtain ⟨a, v⟩ := p
      rw [writeSeq, ih]
      show _ = (match lastWrite ((a, v) :: rest) k with
                | some w => some w
                | none => f k)
      rw [lastWrite]
      cases lastWrite rest k with
      | some w => rfl
      | none =>
          by_cases hk : k = a
          · rw [if_pos hk, if_pos hk]
          · rw [if_neg hk, if_neg hk]

/-- Replaying the same write sequence is the identity. -/
theorem writeSeq_idem (ws : List (String × String))
    (f : String → Option String) :
    writeSeq ws (writeSeq ws f) = writeSeq ws f := by
  funext k
  rw [writeSeq_apply, writeSeq_apply]
  cases lastWrite ws k <;> rfl

/-- An attribute never written by a sequence reads from the base map. -/
theorem writeSeq_not_written (ws : List (String × String))
    (f : String → Option String) (k : String)
    (h : ∀ p ∈ ws, p.1 ≠ k) : writeSeq ws f k = f k := by
  have hlw : lastWrite ws k = none := by
    induction ws with
    | nil => rfl
    | cons p rest ih =>
        obtain ⟨a, v⟩ := p
        rw [lastWrite, ih (fun q hq => h q (List.mem_cons_of_mem _ hq))]
        rw [if_neg (fun hk => h (a, v) (List.mem_cons_self _ _) hk.symm)]
  rw [writeSeq_apply, hlw]

/-- Every write's attribute name comes from some parsed pair. -/
theorem pairActions_keys (d : JValue) (ps : List (String × Option String))
    (ws : List (String × String)) (h : pairActions d ps = some ws) :
    ∀ q ∈ ws, ∃ p ∈ ps, q.1 = p.1 := by
  induction ps generalizing ws with
  | nil =>
      simp only [pairActions, Option.some.injEq] at h
      subst h
      intro q hq
      exact absurd hq (List.not_mem_nil q)
  | cons p rest ih =>
      obtain ⟨a, okey⟩ := p
      cases okey with
      | none => simp [pairActions] at h
      | some key =>
          rw [pairActions] at h
          cases ht : t d key with
          | str s =>
              rw [ht] at h
              cases hpa : pairActions d rest with
              | none => rw [hpa] at h; simp at h
              | some ws' =>
                  rw [hpa] at h
                  have hws : ws = (a, s) :: ws' := by simpa using h.symm
                  subst hws
                  intro q hq
                  rcases List.mem_cons.mp hq with hq | hq
                  · exact ⟨(a, some key), List.mem_cons_self _ _, by rw [hq]⟩
                  · obtain ⟨p', hp', hq'⟩ := ih ws' hpa q hq
                    exact ⟨p', List.mem_cons_of_mem _ hp', hq'⟩
          | null => rw [ht] at h
                    intro q hq
                    obtain ⟨p', hp', hq'⟩ := ih ws h q hq
                    exact ⟨p', List.mem_cons_of_mem _ hp', hq'⟩
          | bool b => rw [ht] at h
                      intro q hq
                      obtain ⟨p', hp', hq'⟩ := ih ws h q hq
                      exact ⟨p', List.mem_cons_of_mem _ hp', hq'⟩
          | num n => rw [ht] at h
                     intro q hq
                     obtain ⟨p', hp', hq'⟩ := ih ws h q hq
                     exact ⟨p', List.mem_cons_of_mem _ hp', hq'⟩
          | arr vs => rw [ht] at h
                      intro q hq
                      obtain ⟨p', hp', hq'⟩ := ih ws h q hq
                      exact ⟨p', List.mem_cons_of_mem _ hp', hq'⟩
          | obj kvs => rw [ht] at h
                       intro q hq
                       obtain ⟨p', hp', hq'⟩ := ih ws h q hq
                       exact ⟨p', List.mem_cons_of_mem _ hp', hq'⟩

/-- The attribute pass factors through its write sequence: it only
writes attributes, at names and values computed from the dataset and the
parsed pairs alone. -/
theorem applyPairs_factor (d : JValue) (ps : List (String × Option String))
    (e : Element) :
    applyPairs d e ps =
      (pairActions d ps).map (fun ws => { e with attrs := writeSeq ws e.attrs }) := by
  induction ps generalizing e with
  | nil => rfl
  | cons p rest ih =>
      obtain ⟨a, okey⟩ := p
      cases okey with
      | none => rfl
      | some key =>
          cases ht : t d key with
          | str s =>
              simp only [applyPairs, applyAttrPair, ht, pairActions]
              rw [ih]
              cases hpa : pairActions d rest <;> rfl
          | null =>
              simp only [applyPairs, applyAttrPair, ht, pairActions]
              exact ih e
          | bool b =>
              simp only [applyPairs, applyAttrPair, ht, pairActions]
              exact ih e
          | num n =>
              simp only [applyPairs, applyAttrPair, ht, pairActions]
              exact ih e
          | arr vs =>
              simp only [applyPairs, applyAttrPair, ht, pairActions]
              exact ih e
          | obj kvs =>
              simp only [applyPairs, applyAttrPair, ht, pairActions]
              exact ih e

/-- One element's render round-trips: when the element's attribute
mapping pairs do not target the two marker attributes, the result of a
content-then-attribute pass is a fixed point of both passes. -/
theorem elem_roundtrip (d : JValue) (e e' : Element)
    (hm : ∀ spec, e.attrs "data-i18n-attr" = some spec →
      ∀ p ∈ parsePairs spec, p.1 ≠ "data-i18n" ∧ p.1 ≠ "data-i18n-attr")
    (h : applyAttrs d (applyContent d e) = some e') :
    applyContent d e' = e' ∧ applyAttrs d e' = some e' := by
  have hattrs₁ : (applyContent d e).attrs = e.attrs := applyContent_attrs d e
  unfold applyAttrs at h
  rw [hattrs₁] at h
  cases hspec : e.attrs "data-i18n-attr" with
  | none =>
      simp only [hspec] at h
      have he' : e' = applyContent d e := by
        injection h with h'
        exact h'.symm
      constructor
      · rw [he']
        exact applyContent_idem d e
      · rw [he']
        unfold applyAttrs
        rw [hattrs₁, hspec]
  | some spec =>
      simp only [hspec] at h
      rw [applyPairs_factor] at h
      cases hpa : pairActions d (parsePairs spec) with
      | none =>
          rw [hpa] at h
          exact absurd h (by simp)
      | some ws =>
          rw [hpa] at h
          have he' : e' =
              { applyContent d e with
                  attrs := writeSeq ws (applyContent d e).attrs } := by
            simpa using h.symm
          have hws : ∀ q ∈ ws, q.1 ≠ "data-i18n" ∧ q.1 ≠ "data-i18n-attr" := by
            intro q hq
            obtain ⟨p, hp, hqp⟩ := pairActions_keys d _ ws hpa q hq
            rw [hqp]
            exact hm spec hspec p hp
          have hdi : e'.attrs "data-i18n" = e.attrs "data-i18n" := by
            rw [he']
            show writeSeq ws (applyContent d e).attrs "data-i18n" = _
            rw [writeSeq_not_written _ _ _ (fun p hp => (hws p hp).1), hattrs₁]
          have hda : e'.attrs "data-i18n-attr" = some spec := by
            rw [he']
            show writeSeq ws (applyContent d e).attrs "data-i18n-attr" = _
            rw [writeSeq_not_written _ _ _ (fun p hp => (hws p hp).2), hattrs₁,
              hspec]
          have hcont : e'.content = (applyContent d e).content := by rw [he']
          have hsw : writeSeq ws e'.attrs = e'.attrs := by
            calc writeSeq ws e'.attrs
                = writeSeq ws (writeSeq ws (applyContent d e).attrs) := by rw [he']
              _ = writeSeq ws (applyContent d e).attrs := writeSeq_idem _ _
              _ = e'.attrs := by rw [he']
          constructor
          · cases hkey : e.attrs "data-i18n" with
            | none =>
                have hdi' : e'.attrs "data-i18n" = none := by rw [hdi, hkey]
                simp [applyContent, hdi']
            | some key =>
                have hdi' : e'.attrs "data-i18n" = some key := by rw [hdi, hkey]
                cases ht : t d key with
                | str s =>
                    have hc1 : (applyContent d e).content =
                        (if jsIncludes s '<' then Content.html s else Content.text s) := by
                      simp [applyContent, hkey, ht]
                    have hc2 : e'.content =
                        (if jsIncludes s '<' then Content.html s else Content.text s) :=
                      hcont.trans hc1
                    calc applyContent d e'
                        = { e' with content :=
                            (if jsIncludes s '<' then Content.html s else Content.text s) } := by
                          simp [applyContent, hdi', ht]
                      _ = { e' with content := e'.content } := by rw [hc2]
                      _ = e' := rfl
                | null => simp [applyContent, hdi', ht]
                | bool b => simp [applyContent, hdi', ht]
                | num n => simp [applyContent, hdi', ht]
                | arr vs => simp [applyContent, hdi', ht]
                | obj kvs => simp [applyContent, hdi', ht]
          · unfold applyAttrs
            simp only [hda]
            rw [applyPairs_factor, hpa]
            show some { e' with attrs := writeSeq ws e'.attrs } = some e'
            rw [hsw]

/-- The element-list render round-trips under the marker condition. -/
theorem list_roundtrip (d : JValue) (els els' : List Element)
    (hm : ∀ e ∈ els, ∀ spec, e.attrs "data-i18n-attr" = some spec →
      ∀ p ∈ parsePairs spec, p.1 ≠ "data-i18n" ∧ p.1 ≠ "data-i18n-attr")
    (h : applyAttrsList d (els.map (applyContent d)) = some els') :
    els'.map (applyContent d) = els' ∧ applyAttrsList d els' = some els' := by
  induction els generalizing els' with
  | nil =>
      simp only [List.map_nil, applyAttrsList, Option.some.injEq] at h
      subst h
      exact ⟨rfl, rfl⟩
  | cons e es ih =>
      simp only [List.map_cons, applyAttrsList] at h
      cases ha : applyAttrs d (applyContent d e) with
      | none => simp [ha] at h
      | some e1 =>
          simp only [ha] at h
          cases hrest : applyAttrsList d (es.map (applyContent d)) with
          | none => simp [hrest] at h
          | some es' =>
              simp only [hrest, Option.some.injEq] at h
              subst h
              obtain ⟨hc, ha'⟩ :=
                elem_roundtrip d e e1 (hm e (List.mem_cons_self _ _)) ha
              obtain ⟨hmap, hlist⟩ :=
                ih es' (fun x hx => hm x (List.mem_cons_of_mem _ hx)) hrest
              constructor
              · simp only [List.map_cons, hc, hmap]
              · simp only [applyAttrsList, ha', hlist]

/-- The title update is idempotent (the written value depends only on
the dataset). -/
theorem applyTitle_idem (d : JValue) (x : String) :
    applyTitle d (applyTitle d x) = applyTitle d x := by
  cases hm : getProp d "meta" with
  | none => simp [applyTitle, hm]
  | some m =>
      by_cases ht : jsTruthy m = true
      · cases hti : getProp m "title" with
        | none => simp [applyTitle, hm, ht, hti]
        | some ti =>
            by_cases htt : jsTruthy ti = true
            · simp [applyTitle, hm, ht, hti, htt]
            · simp [applyTitle, hm, ht, hti, htt]
      · simp [applyTitle, hm, ht]

/-- The meta-description update is idempotent. -/
theorem applyMetaDesc_idem (d : JValue) (x : Option String) :
    applyMetaDesc d (applyMetaDesc d x) = applyMetaDesc d x := by
  cases x with
  | none => simp [applyMetaDesc]
  | some old =>
      cases hm : getProp d "meta" with
      | none => simp [applyMetaDesc, hm]
      | some m =>
          by_cases ht : jsTruthy m = true
          · cases hde : getProp m "description" with
            | none => simp [applyMetaDesc, hm, ht, hde]
            | some de =>
                by_cases hdt : jsTruthy de = true
                · simp [applyMetaDesc, hm, ht, hde, hdt]
                · simp [applyMetaDesc, hm, ht, hde, hdt]
          · simp [applyMetaDesc, hm, ht]

/-- No attribute-mapping pair in the document names one of the two
translation marker attributes as the attribute to write. -/
def NoMarkerTargets (doc : Document) : Prop :=
  ∀ e ∈ doc.elements, ∀ spec, e.attrs "data-i18n-attr" = some spec →
    ∀ p ∈ parsePairs spec, p.1 ≠ "data-i18n" ∧ p.1 ≠ "data-i18n-attr"

/-- C8 (amended): rendering is idempotent for documents whose
attribute-mapping pairs do not target the marker attributes `data-i18n`
and `data-i18n-attr`: when one render completes, rendering its result
again reproduces exactly the same element contents, element attributes,
document title and meta description. -/
theorem applyTranslations_idempotent_no_marker_targets
    (d : JValue) (doc doc' : Document) (hm : NoMarkerTargets doc)
    (h : applyTranslations d doc = some doc') :
    applyTranslations d doc' = some doc' := by
  unfold applyTranslations at h
  cases hl : applyAttrsList d (doc.elements.map (applyContent d)) with
  | none =>
      simp only [hl] at h
      exact absurd h (by simp)
  | some els2 =>
      simp only [hl] at h
      by_cases hnull : isNull d = true
      · rw [if_pos hnull] at h
        exact absurd h (by simp)
      · rw [if_neg hnull] at h
        have hd' : doc' =
            { doc with elements := els2, title := applyTitle d doc.title
                       metaDesc := applyMetaDesc d doc.metaDesc } := by
          injection h with h'
          exact h'.symm
        subst hd'
        obtain ⟨hmap, hlist⟩ := list_roundtrip d doc.elements els2 hm hl
        unfold applyTranslations
        show (match applyAttrsList d (els2.map (applyContent d)) with
              | none => none
              | some els3 =>
                  if isNull d = true then none
                  else some { doc with
                              elements := els3
                              title := applyTitle d (applyTitle d doc.title)
                              metaDesc :=
                                applyMetaDesc d (applyMetaDesc d doc.metaDesc) }) =
            some { doc with elements := els2, title := applyTitle d doc.title
                            metaDesc := applyMetaDesc d doc.metaDesc }
        simp only [hmap, hlist]
        rw [if_neg hnull, applyTitle_idem, applyMetaDesc_idem]

/-- An element whose attribute mapping writes the `data-i18n` marker
itself. -/
def eMarker : Element :=
  { attrs := fun k => if k = "data-i18n-attr" then some "data-i18n:k" else none
    content := .text "" }

/-- A dataset under which that write lands on a key with a translation. -/
def dMarker : JValue := .obj [("k", .str "other"), ("other", .str "Y")]

/-- A document holding just that element. -/
def docMarker : Document :=
  { elements := [eMarker], title := "", metaDesc := none, htmlLang := ""
    htmlDir := "", bodyRtl := false, bodyLtr := false, bodyI18nReady := false }

/-- C8 counterexample: on a document whose attribute-mapping pair writes
the `data-i18n` marker attribute, the first render leaves the element
content untouched while the second render — now finding the freshly
written `data-i18n="other"` — rewrites the content to `"Y"`.  Rendering
twice does not equal rendering once. -/
theorem applyTranslations_not_idempotent_counterexample :
    ((applyTranslations dMarker docMarker).map
      (fun doc => doc.elements.map (fun e => e.content))) =
        some [.text ""] ∧
    (((applyTranslations dMarker docMarker).bind (applyTranslations dMarker)).map
      (fun doc => doc.elements.map (fun e => e.content))) =
        some [.text "Y"] ∧
    (some [Content.text ""] : Option (List Content)) ≠ some [Content.text "Y"] :=
  ⟨rfl, rfl, by decide⟩

/-- A well-behaved dataset for the idempotence witness. -/
def dW8 : JValue :=
  .obj [("k", .str "Hello"), ("k2", .str "World"),
        ("meta", .obj [("title", .str "T")])]

/-- An element with a content key and a `title` attribute mapping. -/
def eW8 : Element :=
  { attrs := fun k =>
      if k = "data-i18n" then some "k"
      else if k = "data-i18n-attr" then some "title:k2" else none
    content := .text "" }

/-- A document holding that element, with a description meta element. -/
def docW8 : Document :=
  { elements := [eW8], title := "", metaDesc := some "old", htmlLang := ""
    htmlDir := "", bodyRtl := false, bodyLtr := false, bodyI18nReady := false }

/-- The result of one render of that document. -/
def docW8R : Document := (applyTranslations dW8 docW8).getD docEmpty

/-- Witness for C8 (amended): rendering the once-rendered document again
is the identity on it. -/
theorem applyTranslations_idempotent_no_marker_targets_witness :
    applyTranslations dW8 docW8R = some docW8R :=
  applyTranslations_idempotent_no_marker_targets dW8 docW8 docW8R
    (by
      intro e he spec hspec p hp
      have he' : e = eW8 := by simpa [docW8] using he
      subst he'
      injection hspec with h1
      subst h1
      have hp' : p = ("title", some "k2") := List.mem_singleton.mp hp
      subst hp'
      exact ⟨by decide, by decide⟩)
    rfl

end I18n
